import Mathlib

/-!
Verification of the sbomplay repository: a shallow embedding of its core
subsystems in Lean 4, with theorems settling the specification's claims.

The embedding covers:
* the JSON document model and the SQLite JSON1 primitives (`json_each`,
  `json_extract`, `LIKE`) that `utils/sbom_processor.py` relies on;
* the document store and session table of `utils/database.py`;
* the rate-limit handling and request retry logic of
  `utils/github_client.py`;
* the background scan orchestration of `app.py` (`analyze_organization`
  and the `/analyze` endpoint).

SQLite behaviours that the source queries depend on (case-insensitive
`LIKE` over ASCII, `json_each` row production, `json_extract` raising
"malformed JSON" on a bare-string row value, `INSERT OR REPLACE`
deleting the old row and appending a fresh one) are modelled as observed
from SQLite 3.x's documented JSON1 semantics.
-/

/-! ## JSON documents

A BOM document is a nested JSON tree.  Mutual inductives (instead of
`List Json` fields) keep equality derivable and all recursion structural. -/

mutual

inductive Json where
  | null : Json
  | bool (b : Bool) : Json
  | num (n : Int) : Json
  | str (s : String) : Json
  | arr (xs : JsonList) : Json
  | obj (kvs : JsonObj) : Json
  deriving DecidableEq

inductive JsonList where
  | nil : JsonList
  | cons (hd : Json) (tl : JsonList) : JsonList
  deriving DecidableEq

inductive JsonObj where
  | nil : JsonObj
  | cons (key : String) (val : Json) (tl : JsonObj) : JsonObj
  deriving DecidableEq

end

def JsonList.toList : JsonList → List Json
  | .nil => []
  | .cons h t => h :: t.toList

def JsonList.ofList : List Json → JsonList
  | [] => .nil
  | h :: t => .cons h (ofList t)

/-- The member values of a JSON object, in member order. -/
def JsonObj.vals : JsonObj → List Json
  | .nil => []
  | .cons _ v t => v :: t.vals

def JsonObj.ofPairs : List (String × Json) → JsonObj
  | [] => .nil
  | (k, v) :: t => .cons k v (ofPairs t)

/-- First member with the given key, as `json_extract` resolves an object
field. -/
def JsonObj.find : JsonObj → String → Option Json
  | .nil, _ => none
  | .cons k v t, f => if k = f then some v else JsonObj.find t f

/-- Convenience constructor for array documents. -/
def Json.arrOf (l : List Json) : Json := .arr (JsonList.ofList l)

/-- Convenience constructor for object documents. -/
def Json.objOf (l : List (String × Json)) : Json := .obj (JsonObj.ofPairs l)

/-! ## SQLite JSON1 primitives used by the queries of
`utils/sbom_processor.py` -/

/-! Serialisation of a JSON value to its SQLite JSON text (no whitespace,
as `json()` normalises).  Model strings carry no characters that would
need escaping. -/

mutual

def jsonText : Json → String
  | .null => "null"
  | .bool b => if b then "true" else "false"
  | .num n => toString n
  | .str s => "\"" ++ s ++ "\""
  | .arr xs => "[" ++ jsonTextList xs ++ "]"
  | .obj kvs => "\x7b" ++ jsonTextObj kvs ++ "\x7d"

def jsonTextList : JsonList → String
  | .nil => ""
  | .cons h .nil => jsonText h
  | .cons h (.cons h2 t) => jsonText h ++ "," ++ jsonTextList (.cons h2 t)

def jsonTextObj : JsonObj → String
  | .nil => ""
  | .cons k v .nil => "\"" ++ k ++ "\":" ++ jsonText v
  | .cons k v (.cons k2 v2 t) =>
      "\"" ++ k ++ "\":" ++ jsonText v ++ "," ++ jsonTextObj (.cons k2 v2 t)

end

/-- Object member access of a path step (`$.k`): only objects have members. -/
def jsonGetKey (j : Json) (k : String) : Option Json :=
  match j with
  | .obj kvs => kvs.find k
  | _ => none

/-- The value at path `$.sbom.packages` of a stored document, `none` when the
path does not exist (`json_each(json(content), '$.sbom.packages')` then
produces no row). -/
def pathSbomPackages (doc : Json) : Option Json :=
  (jsonGetKey doc "sbom").bind (fun s => jsonGetKey s "packages")

/-- The rows `json_each` produces for a value: the elements of an array, the
member values of an object, and the value itself for an atom (one row). -/
def jsonEach : Json → List Json
  | .arr xs => xs.toList
  | .obj kvs => kvs.vals
  | v => [v]

/-- SQL value of a member found by `json_extract`: JSON null becomes SQL
NULL and JSON booleans become the SQL integers 1/0, as SQLite represents
them. -/
def sqlValue : Option Json → Option Json
  | some .null => none
  | some (.bool b) => some (.num (if b then 1 else 0))
  | v => v

/-- Model of `json_extract(json_each.value, '$.f')` applied to one row
produced by `json_each`.  For an atom row the value is the bare SQL scalar:
a bare string is not well-formed JSON text, so SQLite raises a
"malformed JSON" error (the model's strings are never themselves JSON
texts); other atoms are well-formed JSON with no `$.f` member.  For a
container row the value is the container's JSON text, and the member is
looked up in it. -/
def extractField (field : String) : Json → Except String (Option Json)
  | .str _ => .error "malformed JSON"
  | .null => .ok none
  | .bool _ => .ok none
  | .num _ => .ok none
  | .arr _ => .ok none
  | .obj kvs => .ok (sqlValue (kvs.find field))

/-- Rendering of a SQL value as TEXT, as the `LIKE` operator coerces its
operand. -/
def sqlText : Json → String
  | .str s => s
  | .num n => toString n
  | .bool b => if b then "1" else "0"
  | .null => ""
  | .arr xs => jsonText (.arr xs)
  | .obj kvs => jsonText (.obj kvs)

/-- Whether `needle` is a leading subsequence of `hay`. -/
def leadsSeq : List Char → List Char → Bool
  | [], _ => true
  | _ :: _, [] => false
  | a :: as, b :: bs => a = b && leadsSeq as bs

/-- Whether `needle` occurs contiguously inside `hay`. -/
def containsSeq (needle : List Char) : List Char → Bool
  | [] => needle.isEmpty
  | b :: bs => leadsSeq needle (b :: bs) || containsSeq needle bs

/-- SQLite's `X LIKE '%githubaction%'` on a non-NULL SQL value: LIKE is
case-insensitive over ASCII by default, and the pattern is all lowercase,
so it matches exactly when the ASCII-lowercased text of `X` contains the
substring "githubaction". -/
def likeGithubaction (v : Json) : Bool :=
  containsSeq "githubaction".data ((sqlText v).data.map Char.toLower)

/-- Sequential evaluation of a fallible row computation over a list, as
SQLite produces rows: the first error aborts the query. -/
def exceptMap (f : α → Except String β) : List α → Except String (List β)
  | [] => .ok []
  | a :: l => do
      let b ← f a
      let bs ← exceptMap f l
      pure (b :: bs)

/-! ## Document store (`utils/database.py`)

The `sbom` table is a sequence of `(source_repo, json_content)` rows in
rowid order; `source_repo` is UNIQUE.  `INSERT OR REPLACE` deletes any
conflicting row and inserts the new row with a fresh rowid, i.e. at the
end of the scan order. -/

/-- Model of `DatabaseManager.store_sbom` (successful write): the upsert of
`INSERT OR REPLACE INTO sbom (source_repo, json_content) VALUES (?, ?)`.
A failed write (local I/O error) is caught by the source, logged and leaves
the table unchanged. -/
def store_sbom (db : List (String × Json)) (source_repo : String) (doc : Json) :
    List (String × Json) :=
  db.filter (fun p => p.1 != source_repo) ++ [(source_repo, doc)]

/-! ## BOM query engine (`utils/sbom_processor.py`) -/

/-- The non-NULL `SPDXID` identities one stored document contributes: the
rows of `json_each(json(content), '$.sbom.packages')`, each row's
`json_extract(value, '$.SPDXID')`, keeping the non-NULL results
(`WHERE package_name IS NOT NULL`). -/
def docIdentities (doc : Json) : Except String (List Json) :=
  match pathSbomPackages doc with
  | none => .ok []
  | some p => do
      let vals ← exceptMap (extractField "SPDXID") (jsonEach p)
      pure (vals.filterMap id)

/-- All non-NULL identities across the whole store, in rowid then package
order. -/
def allIdentities (db : List (String × Json)) : Except String (List Json) := do
  let ls ← exceptMap (fun p => docIdentities p.2) db
  pure ls.flatten

/-- GROUP BY package_name with COUNT(*): one pair per distinct identity,
whose count is its number of occurrences.  The order of the groups is
implementation-defined in the source (SQLite's temporary grouping b-tree);
any deterministic order is a faithful model since `ORDER BY` follows. -/
def groupCounts (l : List Json) : List (Json × Nat) :=
  l.dedup.map (fun k => (k, l.count k))

/-- Comparison used by `ORDER BY occurrence_count DESC`: later rows have
counts no larger than earlier ones. -/
def countGE (a b : Json × Nat) : Prop := b.2 ≤ a.2

instance : DecidableRel countGE := fun a b => Nat.decLe b.2 a.2

instance : IsTotal (Json × Nat) countGE :=
  ⟨fun a b => Nat.le_total b.2 a.2⟩

instance : IsTrans (Json × Nat) countGE :=
  ⟨fun _ _ _ h1 h2 => Nat.le_trans h2 h1⟩

/-- Model of `SBOMProcessor.get_top_dependencies`: identities of all
documents, minus NULLs and `LIKE '%githubaction%'` matches, grouped with
counts, sorted by count descending (ties in implementation-defined order),
first `limit` rows. -/
def get_top_dependencies (db : List (String × Json)) (limit : Nat) :
    Except String (List (Json × Nat)) := do
  let ids ← allIdentities db
  let kept := ids.filter (fun v => !(likeGithubaction v))
  pure ((List.insertionSort countGE (groupCounts kept)).take limit)

/-- Result shape of `SBOMProcessor.get_dependency_stats`. -/
structure DependencyStats where
  unique_dependencies : Nat
  total_occurrences : Nat
  sbom_count : Nat
  deriving DecidableEq

/-- Model of `SBOMProcessor.get_dependency_stats`: COUNT(DISTINCT SPDXID)
over non-NULL identities, COUNT(*) over non-NULL identities, and the row
count of the `sbom` table.  The two aggregate queries traverse the store
independently. -/
def get_dependency_stats (db : List (String × Json)) :
    Except String DependencyStats := do
  let ids ← allIdentities db
  let ids2 ← allIdentities db
  pure ⟨ids.dedup.length, ids2.length, db.length⟩

/-- One result row of `SBOMProcessor.get_dependencies_by_repo`. -/
structure DepRow where
  package_name : Option Json
  name : Option Json
  version : Option Json
  license : Option Json
  deriving DecidableEq

/-- The dependency rows one document contributes to
`get_dependencies_by_repo`: per `json_each` row the four `json_extract`
fields, keeping rows whose `SPDXID` is non-NULL. -/
def docDepRows (doc : Json) : Except String (List DepRow) :=
  match pathSbomPackages doc with
  | none => .ok []
  | some p => do
      let rows ← exceptMap (fun v => do
          let pn ← extractField "SPDXID" v
          let nm ← extractField "name" v
          let ver ← extractField "versionInfo" v
          let lic ← extractField "licenseConcluded" v
          pure (DepRow.mk pn nm ver lic)) (jsonEach p)
      pure (rows.filter (fun r => r.package_name.isSome))

/-- Model of `SBOMProcessor.get_dependencies_by_repo`: the constraint
`sbom.source_repo = ?` restricts the `json_each` join to the matching
rows of `sbom` (SQLite resolves it through the UNIQUE index before
expanding the table-valued function). -/
def get_dependencies_by_repo (db : List (String × Json)) (repo : String) :
    Except String (List DepRow) := do
  let ls ← exceptMap (fun p => docDepRows p.2) (db.filter (fun p => p.1 == repo))
  pure ls.flatten

/-! ## Analysis sessions (`utils/database.py`) -/

/-- One row of the `analysis_sessions` table. -/
structure SessionRow where
  org_name : String
  total_repos : Nat
  processed_repos : Nat
  status : String
  created_at : Nat
  completed_at : Option Nat
  deriving DecidableEq

/-- Model of `DatabaseManager.update_analysis_session`: `UPDATE ... WHERE
id = ?` sets `processed_repos` and `status` on the matching row, and
additionally `completed_at = CURRENT_TIMESTAMP` exactly when the new status
is 'completed'.  `now` stands for CURRENT_TIMESTAMP. -/
def update_analysis_session (tbl : List (Nat × SessionRow)) (session_id : Nat)
    (processed_repos : Nat) (status : String) (now : Nat) :
    List (Nat × SessionRow) :=
  tbl.map (fun row =>
    if row.1 = session_id then
      (row.1,
        if status = "completed" then
          { row.2 with
            processed_repos := processed_repos, status := status,
            completed_at := some now }
        else
          { row.2 with processed_repos := processed_repos, status := status })
    else row)

/-! ## Forge client (`utils/github_client.py`) -/

/-- The parts of an HTTP response that `_handle_rate_limit` inspects: the
status code and the `X-RateLimit-Remaining` / `X-RateLimit-Reset` headers
(the remaining header is compared as the string '0'; the reset header is
parsed with `int(...)`, modelled as already numeric). -/
structure RLResponse where
  status_code : Nat
  rate_limit_remaining : Option String
  rate_limit_reset : Option Int
  deriving DecidableEq

/-- Model of `GitHubClient._handle_rate_limit`.  Returns (retry the
request?, seconds slept before returning).  On a 403 with remaining '0'
and a reset time strictly in the future it sleeps `reset - now + 2`
seconds (the 2 is the source's safety buffer) and asks for a retry; in
every other case it sleeps nothing and asks for no retry. -/
def handle_rate_limit (resp : RLResponse) (now : Int) : Bool × Int :=
  if resp.status_code = 403 then
    if resp.rate_limit_remaining = some "0" then
      match resp.rate_limit_reset with
      | some reset_time =>
          if reset_time - now > 0 then (true, reset_time - now + 2)
          else (false, 0)
      | none => (false, 0)
    else (false, 0)
  else (false, 0)

/-- What one HTTP attempt yields: a network-level failure
(`requests.exceptions.RequestException`) or a response. -/
inductive Attempt where
  | netErr : Attempt
  | resp (r : RLResponse) : Attempt
  deriving DecidableEq

/-- Model of `GitHubClient._make_request`.  `oracle i` is the outcome of
the attempt made at `retry_count = i` and `nows i` the clock at that
attempt.  The result pairs the returned value with the number of HTTP
attempts actually performed.  The recursion mirrors the source: give up
returning None past 3 retries, return None without retrying on a network
error, recurse (at most up to `retry_count = 3`) when the rate-limit
handler asked for a retry, and otherwise return the response. -/
def make_request (oracle : Nat → Attempt) (nows : Nat → Int) (retry_count : Nat) :
    Option RLResponse × Nat :=
  if retry_count > 3 then (none, 0)
  else
    match oracle retry_count with
    | .netErr => (none, 1)
    | .resp r =>
        if (handle_rate_limit r (nows retry_count)).1 then
          if h : retry_count < 3 then
            ((make_request oracle nows (retry_count + 1)).1,
             (make_request oracle nows (retry_count + 1)).2 + 1)
          else (none, 1)
        else (some r, 1)
termination_by 4 - retry_count
decreasing_by all_goals omega

/-- One repository entry of the forge's listing call, restricted to the
fields the source reads: `owner.login`, `name`, `visibility`. -/
structure RepoListing where
  owner : String
  name : String
  visibility : String
  deriving DecidableEq

/-- Model of `GitHubClient.get_public_repositories`: keep exactly the
listed repositories whose `visibility` field equals 'public'. -/
def get_public_repositories (listing : List RepoListing) : List RepoListing :=
  listing.filter (fun r => r.visibility == "public")

/-! ## Batch orchestrator (`app.py`, `analyze_organization`) -/

/-- Outcome of processing one repository inside the scan loop's `try`
block: the SBOM fetch succeeded and parses to `doc`; `fetch_sbom`
returned None (absent); or an exception was raised (after the owner/name
fields were read). -/
inductive FetchOutcome where
  | success (doc : Json) : FetchOutcome
  | absent : FetchOutcome
  | failure (msg : String) : FetchOutcome
  deriving DecidableEq

def fullName (owner name : String) : String := owner ++ "/" ++ name

/-- The scan's observable state: the progress record
(`analysis_progress[session_id]`: status, processed, total, current_repo,
errors), the document store, and two traces — the arguments of the
`update_analysis_session` calls made so far, and the `time.sleep` pacing
delay applied per repository (`none` when the repository's iteration
raised and reached the `except` branch, which performs no sleep). -/
structure ScanState where
  status : String
  processed : Nat
  total : Nat
  current_repo : String
  errors : List String
  db : List (String × Json)
  sessionUpdates : List (Nat × String)
  attempts : List String
  delays : List (Option ℚ)
  deriving DecidableEq

/-- The adaptive inter-repository delay, in seconds, on the success/absent
path: every 5th processed repository polls the rate limit (`poll` is the
parsed remaining count, `none` when the poll raised or did not parse) and
sleeps 2.0 when remaining ≤ 20, else 0.5 (also 0.5 when the poll failed);
every other repository sleeps 0.1. -/
def pacingDelay (processed : Nat) (poll : Option Nat) : ℚ :=
  if processed % 5 = 0 then
    match poll with
    | some remaining => if remaining ≤ 20 then 2 else 1 / 2
    | none => 1 / 2
  else 1 / 10

/-- One iteration of the scan loop of `analyze_organization`, for
repository `r` with fetch outcome `r.2`.  All three paths set
`current_repo`, increment the processed count by one and persist it with
`update_analysis_session(session_id, processed)`; the success path also
stores the document; the exception path appends the formatted error
message and skips the pacing sleep. -/
def processRepo (quota : Nat → Option Nat) (st : ScanState)
    (r : (String × String) × FetchOutcome) : ScanState :=
  match r.2 with
  | .success doc =>
      { st with
        current_repo := fullName r.1.1 r.1.2,
        attempts := st.attempts ++ [fullName r.1.1 r.1.2],
        db := store_sbom st.db (fullName r.1.1 r.1.2) doc,
        processed := st.processed + 1,
        sessionUpdates := st.sessionUpdates ++ [(st.processed + 1, "processing")],
        delays := st.delays ++
          [some (pacingDelay (st.processed + 1) (quota (st.processed + 1)))] }
  | .absent =>
      { st with
        current_repo := fullName r.1.1 r.1.2,
        attempts := st.attempts ++ [fullName r.1.1 r.1.2],
        processed := st.processed + 1,
        sessionUpdates := st.sessionUpdates ++ [(st.processed + 1, "processing")],
        delays := st.delays ++
          [some (pacingDelay (st.processed + 1) (quota (st.processed + 1)))] }
  | .failure msg =>
      { st with
        current_repo := fullName r.1.1 r.1.2,
        attempts := st.attempts ++ [fullName r.1.1 r.1.2],
        errors := st.errors ++
          ["Error processing " ++ fullName r.1.1 r.1.2 ++ ": " ++ msg],
        processed := st.processed + 1,
        sessionUpdates := st.sessionUpdates ++ [(st.processed + 1, "processing")],
        delays := st.delays ++ [none] }

/-- The progress record as `analyze_organization` initialises it, over an
existing document store `db0`. -/
def initialScanState (db0 : List (String × Json)) (total : Nat) : ScanState :=
  { status := "processing", processed := 0, total := total, current_repo := "",
    errors := [], db := db0, sessionUpdates := [], attempts := [], delays := [] }

/-- Model of `analyze_organization(org_name, repos, session_id)`: fold the
per-repository iteration over the listing, then mark the progress record
and the session completed.  `repos` carries each listed repository's
(owner, name) together with its fetch outcome; `quota` is the rate-limit
poll observed when the processed count hits a multiple of 5. -/
def analyze_organization (db0 : List (String × Json))
    (repos : List ((String × String) × FetchOutcome))
    (quota : Nat → Option Nat) : ScanState :=
  let final := repos.foldl (processRepo quota) (initialScanState db0 repos.length)
  { final with
    status := "completed",
    sessionUpdates := final.sessionUpdates ++ [(final.processed, "completed")] }

/-- Model of the POST `/analyze` route for a non-empty organisation: list
the repositories, keep the public ones, refuse the scan when none remain,
otherwise create a session with `total_repos = len(repos)` and launch
`analyze_organization` on exactly that list.  Returns the session's
recorded total and the scan's final state. -/
def analyze_endpoint (db0 : List (String × Json)) (listing : List RepoListing)
    (outcomes : RepoListing → FetchOutcome) (quota : Nat → Option Nat) :
    Option (Nat × ScanState) :=
  let repos := get_public_repositories listing
  if repos.length = 0 then none
  else
    some (repos.length,
      analyze_organization db0
        (repos.map (fun r => ((r.owner, r.name), outcomes r))) quota)

/-- The sequence of `update_analysis_session` calls the scan loop performs
when the processed count starts at `base`: one `(base + i + 1,
'processing')` per repository. -/
def expectedUpdates (base : Nat) : List ((String × String) × FetchOutcome) →
    List (Nat × String)
  | [] => []
  | _ :: rs => (base + 1, "processing") :: expectedUpdates (base + 1) rs

/-- The pacing delay applied per repository when the processed count starts
at `base`: no sleep on the exception path, otherwise the adaptive delay at
the repository's processed count. -/
def expectedDelays (quota : Nat → Option Nat) (base : Nat) :
    List ((String × String) × FetchOutcome) → List (Option ℚ)
  | [] => []
  | r :: rs =>
      (match r.2 with
        | .failure _ => none
        | _ => some (pacingDelay (base + 1) (quota (base + 1)))) ::
      expectedDelays quota (base + 1) rs

/-- The error messages the scan loop accumulates, one per repository whose
iteration raised. -/
def expectedErrors (repos : List ((String × String) × FetchOutcome)) :
    List String :=
  repos.filterMap (fun r =>
    match r.2 with
    | .failure msg =>
        some ("Error processing " ++ fullName r.1.1 r.1.2 ++ ": " ++ msg)
    | _ => none)

/-! ## Reduction helpers for the `Except` monad -/

@[simp]
theorem except_ok_bind (a : α) (f : α → Except String β) :
    (Except.ok a >>= f) = f a := rfl

@[simp]
theorem except_error_bind (e : String) (f : α → Except String β) :
    ((Except.error e : Except String α) >>= f) = .error e := rfl

@[simp]
theorem except_pure_eq_ok (a : α) : (pure a : Except String α) = .ok a := rfl

/-! ## C6 — idempotent last-write-wins upsert of `store_sbom` -/

/-- C6: storing `d1` and then `d2` under the same repository key leaves
exactly one row for that key, whose content is `d2`; the two stores
collapse to a single store of `d2` (so in particular storing the same
document twice equals storing it once). -/
theorem store_sbom_last_write_wins (db : List (String × Json)) (k : String)
    (d1 d2 : Json) :
    (store_sbom (store_sbom db k d1) k d2).filter (fun p => p.1 == k) = [(k, d2)]
    ∧ store_sbom (store_sbom db k d1) k d2 = store_sbom db k d2
    ∧ store_sbom (store_sbom db k d1) k d1 = store_sbom db k d1 := by
  refine ⟨?_, ?_, ?_⟩ <;>
    simp [store_sbom, List.filter_append, List.filter_filter]

/-! ## C10 — frame conditions of `update_analysis_session` -/

/-- C10: a session update touches only the row whose id matches; on that
row it never changes `org_name`, `total_repos` or `created_at`, and it
changes `completed_at` only when the new status is 'completed'. -/
theorem update_session_frame (tbl : List (Nat × SessionRow))
    (session_id processed : Nat) (status : String) (now : Nat)
    (j : Nat) (hj : j < tbl.length) :
    let old := tbl.get ⟨j, hj⟩
    let upd := (update_analysis_session tbl session_id processed status now).get
      ⟨j, by simpa [update_analysis_session] using hj⟩
    upd.1 = old.1
    ∧ upd.2.org_name = old.2.org_name
    ∧ upd.2.total_repos = old.2.total_repos
    ∧ upd.2.created_at = old.2.created_at
    ∧ (old.1 ≠ session_id → upd = old)
    ∧ (status ≠ "completed" → upd.2.completed_at = old.2.completed_at) := by
  intro old upd
  have hupd : upd = (fun row =>
      if row.1 = session_id then
        (row.1,
          if status = "completed" then
            { row.2 with
              processed_repos := processed, status := status,
              completed_at := some now }
          else
            { row.2 with processed_repos := processed, status := status })
      else row) old := by
    simp [upd, update_analysis_session, List.get_eq_getElem, List.getElem_map, old]
  by_cases hid : old.1 = session_id
  · by_cases hst : status = "completed" <;>
      simp [hupd, hid, hst]
  · simp [hupd, hid]

/-! ## C4 — quota exhaustion handling of `_handle_rate_limit` -/

/-- C4: on a 403 response with remaining quota '0': with a reset time
strictly in the future the handler sleeps until reset plus the 2-second
safety buffer and asks for a retry, and `_make_request` then re-issues the
same request (one more attempt, the wait is not a failure); with no reset
header the handler asks for no retry and `_make_request` returns this
very response as the terminal outcome of that attempt, without retrying. -/
theorem rate_limit_wait_then_retry (resp : RLResponse) (now : Int)
    (h403 : resp.status_code = 403)
    (hrem : resp.rate_limit_remaining = some "0") :
    (∀ t : Int, resp.rate_limit_reset = some t → now < t →
        handle_rate_limit resp now = (true, t - now + 2)
        ∧ ∀ (oracle : Nat → Attempt) (nows : Nat → Int) (rc : Nat),
            oracle rc = .resp resp → nows rc = now → rc < 3 →
            make_request oracle nows rc
              = ((make_request oracle nows (rc + 1)).1,
                 (make_request oracle nows (rc + 1)).2 + 1))
    ∧ (resp.rate_limit_reset = none →
        handle_rate_limit resp now = (false, 0)
        ∧ ∀ (oracle : Nat → Attempt) (nows : Nat → Int) (rc : Nat),
            oracle rc = .resp resp → nows rc = now → rc ≤ 3 →
            make_request oracle nows rc = (some resp, 1)) := by
  constructor
  · intro t hreset hfut
    have hrl : handle_rate_limit resp now = (true, t - now + 2) := by
      simp only [handle_rate_limit, h403, hrem, hreset, if_pos rfl]
      simp
      omega
    refine ⟨hrl, ?_⟩
    intro oracle nows rc horacle hnow hrc
    rw [make_request]
    have h3 : ¬ rc > 3 := by omega
    simp [h3, horacle, hnow, hrl, hrc]
  · intro hreset
    have hrl : handle_rate_limit resp now = (false, 0) := by
      simp [handle_rate_limit, h403, hrem, hreset]
    refine ⟨hrl, ?_⟩
    intro oracle nows rc horacle hnow hrc
    rw [make_request]
    have h3 : ¬ rc > 3 := by omega
    simp [h3, horacle, hnow, hrl]

/-- C4, instantiated: a 403 with remaining '0' and reset 100 observed at
time 90 sleeps 12 seconds (until reset + 2) and retries; the same response
without a reset header is returned unretried. -/
theorem rate_limit_wait_then_retry_witness :
    handle_rate_limit ⟨403, some "0", some 100⟩ 90 = (true, 12)
    ∧ make_request (fun _ => .resp ⟨403, some "0", none⟩) (fun _ => 90) 0
        = (some ⟨403, some "0", none⟩, 1) := by
  constructor
  · exact ((rate_limit_wait_then_retry ⟨403, some "0", some 100⟩ 90 rfl rfl).1
      100 rfl (by decide)).1
  · exact ((rate_limit_wait_then_retry ⟨403, some "0", none⟩ 90 rfl rfl).2
      rfl).2 _ _ 0 rfl rfl (by decide)

/-! ## C5 — bounded retries in `_make_request` -/

/-- The number of HTTP attempts `_make_request` performs from a given
`retry_count` never exceeds `4 - retry_count` (so at most 4 attempts, i.e.
3 retries, from the initial call at `retry_count = 0`). -/
theorem make_request_attempts_le (oracle : Nat → Attempt) (nows : Nat → Int) :
    ∀ (k rc : Nat), 4 - rc ≤ k → (make_request oracle nows rc).2 ≤ 4 - rc := by
  intro k
  induction k with
  | zero =>
      intro rc h
      rw [make_request]
      have h3 : rc > 3 := by omega
      simp [h3]
  | succ k ih =>
      intro rc h
      rw [make_request]
      by_cases h3 : rc > 3
      · simp [h3]
      · simp only [h3, if_false]
        cases horacle : oracle rc with
        | netErr => simp; omega
        | resp r =>
            by_cases hrl : (handle_rate_limit r (nows rc)).1
            · simp only [hrl, if_true]
              by_cases hlt : rc < 3
              · have := ih (rc + 1) (by omega)
                simp only [hlt]
                simp
                omega
              · simp only [hlt]
                simp
                omega
            · simp [hrl]
              omega

/-- C5: `_make_request` terminates with a bounded number of attempts —
at most `4 - retry_count` (3 retries beyond the first attempt) — and it
retries only on the rate-limit reset-wait signal: a network error returns
None with no retry, and a response whose rate-limit handler asks for no
retry is returned after that single attempt. -/
theorem make_request_retry_discipline (oracle : Nat → Attempt)
    (nows : Nat → Int) (rc : Nat) :
    (make_request oracle nows rc).2 ≤ 4 - rc
    ∧ (oracle rc = .netErr → rc ≤ 3 → make_request oracle nows rc = (none, 1))
    ∧ (∀ r : RLResponse, oracle rc = .resp r →
        (handle_rate_limit r (nows rc)).1 = false → rc ≤ 3 →
        make_request oracle nows rc = (some r, 1)) := by
  refine ⟨make_request_attempts_le oracle nows (4 - rc) rc (Nat.le_refl _), ?_, ?_⟩
  · intro horacle hrc
    rw [make_request]
    have h3 : ¬ rc > 3 := by omega
    simp [h3, horacle]
  · intro r horacle hrl hrc
    rw [make_request]
    have h3 : ¬ rc > 3 := by omega
    simp [h3, horacle, hrl]

/-! ## Scan-loop characterisation (`analyze_organization`) -/

theorem processRepo_processed (quota : Nat → Option Nat) (st : ScanState)
    (r : (String × String) × FetchOutcome) :
    (processRepo quota st r).processed = st.processed + 1 := by
  obtain ⟨p, o⟩ := r
  cases o <;> rfl

theorem processRepo_status (quota : Nat → Option Nat) (st : ScanState)
    (r : (String × String) × FetchOutcome) :
    (processRepo quota st r).status = st.status := by
  obtain ⟨p, o⟩ := r
  cases o <;> rfl

theorem processRepo_total (quota : Nat → Option Nat) (st : ScanState)
    (r : (String × String) × FetchOutcome) :
    (processRepo quota st r).total = st.total := by
  obtain ⟨p, o⟩ := r
  cases o <;> rfl

theorem processRepo_attempts (quota : Nat → Option Nat) (st : ScanState)
    (r : (String × String) × FetchOutcome) :
    (processRepo quota st r).attempts = st.attempts ++ [fullName r.1.1 r.1.2] := by
  obtain ⟨p, o⟩ := r
  cases o <;> rfl

theorem processRepo_sessionUpdates (quota : Nat → Option Nat) (st : ScanState)
    (r : (String × String) × FetchOutcome) :
    (processRepo quota st r).sessionUpdates
      = st.sessionUpdates ++ [(st.processed + 1, "processing")] := by
  obtain ⟨p, o⟩ := r
  cases o <;> rfl

theorem processRepo_errors (quota : Nat → Option Nat) (st : ScanState)
    (r : (String × String) × FetchOutcome) :
    (processRepo quota st r).errors
      = st.errors ++ (match r.2 with
          | .failure msg =>
              ["Error processing " ++ fullName r.1.1 r.1.2 ++ ": " ++ msg]
          | _ => []) := by
  obtain ⟨p, o⟩ := r
  cases o <;> simp [processRepo]

theorem processRepo_delays (quota : Nat → Option Nat) (st : ScanState)
    (r : (String × String) × FetchOutcome) :
    (processRepo quota st r).delays
      = st.delays ++ [match r.2 with
          | .failure _ => none
          | _ => some (pacingDelay (st.processed + 1) (quota (st.processed + 1)))] := by
  obtain ⟨p, o⟩ := r
  cases o <;> rfl

theorem scan_foldl_processed (quota : Nat → Option Nat) :
    ∀ (repos : List ((String × String) × FetchOutcome)) (st : ScanState),
      (repos.foldl (processRepo quota) st).processed = st.processed + repos.length := by
  intro repos
  induction repos with
  | nil => intro st; simp
  | cons r rs ih =>
      intro st
      simp only [List.foldl_cons, ih, processRepo_processed, List.length_cons]
      omega

theorem scan_foldl_status (quota : Nat → Option Nat) :
    ∀ (repos : List ((String × String) × FetchOutcome)) (st : ScanState),
      (repos.foldl (processRepo quota) st).status = st.status := by
  intro repos
  induction repos with
  | nil => intro st; rfl
  | cons r rs ih => intro st; simp only [List.foldl_cons, ih, processRepo_status]

theorem scan_foldl_total (quota : Nat → Option Nat) :
    ∀ (repos : List ((String × String) × FetchOutcome)) (st : ScanState),
      (repos.foldl (processRepo quota) st).total = st.total := by
  intro repos
  induction repos with
  | nil => intro st; rfl
  | cons r rs ih => intro st; simp only [List.foldl_cons, ih, processRepo_total]

theorem scan_foldl_attempts (quota : Nat → Option Nat) :
    ∀ (repos : List ((String × String) × FetchOutcome)) (st : ScanState),
      (repos.foldl (processRepo quota) st).attempts
        = st.attempts ++ repos.map (fun r => fullName r.1.1 r.1.2) := by
  intro repos
  induction repos with
  | nil => intro st; simp
  | cons r rs ih =>
      intro st
      simp only [List.foldl_cons, ih, processRepo_attempts, List.map_cons,
        List.append_assoc, List.singleton_append]

theorem scan_foldl_sessionUpdates (quota : Nat → Option Nat) :
    ∀ (repos : List ((String × String) × FetchOutcome)) (st : ScanState),
      (repos.foldl (processRepo quota) st).sessionUpdates
        = st.sessionUpdates ++ expectedUpdates st.processed repos := by
  intro repos
  induction repos with
  | nil => intro st; simp [expectedUpdates]
  | cons r rs ih =>
      intro st
      simp only [List.foldl_cons, ih, processRepo_sessionUpdates,
        processRepo_processed, expectedUpdates, List.append_assoc,
        List.singleton_append]

theorem scan_foldl_errors (quota : Nat → Option Nat) :
    ∀ (repos : List ((String × String) × FetchOutcome)) (st : ScanState),
      (repos.foldl (processRepo quota) st).errors
        = st.errors ++ expectedErrors repos := by
  intro repos
  induction repos with
  | nil => intro st; simp [expectedErrors]
  | cons r rs ih =>
      intro st
      obtain ⟨p, o⟩ := r
      cases o <;>
        simp [List.foldl_cons, ih, processRepo_errors, expectedErrors,
          List.filterMap_cons]

theorem scan_foldl_delays (quota : Nat → Option Nat) :
    ∀ (repos : List ((String × String) × FetchOutcome)) (st : ScanState),
      (repos.foldl (processRepo quota) st).delays
        = st.delays ++ expectedDelays quota st.processed repos := by
  intro repos
  induction repos with
  | nil => intro st; simp [expectedDelays]
  | cons r rs ih =>
      intro st
      obtain ⟨p, o⟩ := r
      cases o <;>
        simp [List.foldl_cons, ih, processRepo_delays, processRepo_processed,
          expectedDelays]

/-! ## C1 — every listed repository is attempted exactly once and the scan
always completes -/

/-- C1: for any listing whose enumeration succeeded, the background scan
attempts each listed repository exactly once and in order, increments the
processed count by exactly one per repository whatever the fetch outcome,
appends one formatted error message per raising repository without
aborting, and ends with status 'completed' and a final session update
carrying `processed_repos` equal to the number of listed repositories. -/
theorem scan_processes_every_repo_once (db0 : List (String × Json))
    (repos : List ((String × String) × FetchOutcome)) (quota : Nat → Option Nat) :
    (analyze_organization db0 repos quota).attempts
        = repos.map (fun r => fullName r.1.1 r.1.2)
    ∧ (analyze_organization db0 repos quota).processed = repos.length
    ∧ (analyze_organization db0 repos quota).status = "completed"
    ∧ (analyze_organization db0 repos quota).errors = expectedErrors repos
    ∧ (analyze_organization db0 repos quota).sessionUpdates
        = expectedUpdates 0 repos ++ [(repos.length, "completed")] := by
  refine ⟨?_, ?_, rfl, ?_, ?_⟩ <;>
    simp [analyze_organization, initialScanState, scan_foldl_attempts,
      scan_foldl_processed, scan_foldl_errors, scan_foldl_sessionUpdates]

/-! ## C3 — persisted progress is monotone and bounded by the total -/

theorem expectedUpdates_mem :
    ∀ (l : List ((String × String) × FetchOutcome)) (base : Nat)
      (u : Nat × String), u ∈ expectedUpdates base l →
      base < u.1 ∧ u.1 ≤ base + l.length := by
  intro l
  induction l with
  | nil => intro base u hu; simp [expectedUpdates] at hu
  | cons r rs ih =>
      intro base u hu
      simp only [expectedUpdates, List.mem_cons] at hu
      rcases hu with rfl | hu
      · simp
      · have := ih (base + 1) u hu
        constructor <;> [omega; (simp only [List.length_cons]; omega)]

theorem expectedUpdates_pairwise :
    ∀ (l : List ((String × String) × FetchOutcome)) (base : Nat),
      List.Pairwise (fun a b : Nat × String => a.1 ≤ b.1)
        (expectedUpdates base l) := by
  intro l
  induction l with
  | nil => intro base; simp [expectedUpdates]
  | cons r rs ih =>
      intro base
      simp only [expectedUpdates]
      refine List.Pairwise.cons ?_ (ih (base + 1))
      intro u hu
      have := expectedUpdates_mem rs (base + 1) u hu
      omega

/-- C3: along one scan, the sequence of `processed_repos` values persisted
by the session updates is non-decreasing in time, and every persisted
value is at most the session's `total_repos` (recorded at creation as the
length of the scanned listing, which the final state still carries in
`total`). -/
theorem session_progress_monotone (db0 : List (String × Json))
    (repos : List ((String × String) × FetchOutcome)) (quota : Nat → Option Nat) :
    (analyze_organization db0 repos quota).total = repos.length
    ∧ List.Pairwise (fun a b : Nat × String => a.1 ≤ b.1)
        ((analyze_organization db0 repos quota).sessionUpdates)
    ∧ ∀ u ∈ (analyze_organization db0 repos quota).sessionUpdates,
        u.1 ≤ (analyze_organization db0 repos quota).total := by
  have htot : (analyze_organization db0 repos quota).total = repos.length := by
    simp [analyze_organization, scan_foldl_total, initialScanState]
  have hupd := (scan_processes_every_repo_once db0 repos quota).2.2.2.2
  refine ⟨htot, ?_, ?_⟩
  · rw [hupd]
    rw [List.pairwise_append]
    refine ⟨expectedUpdates_pairwise repos 0, List.pairwise_singleton _ _, ?_⟩
    intro a ha b hb
    have := expectedUpdates_mem repos 0 a ha
    simp only [List.mem_singleton] at hb
    subst hb
    omega
  · intro u hu
    rw [htot]
    rw [hupd] at hu
    rcases List.mem_append.1 hu with h | h
    · have := expectedUpdates_mem repos 0 u h
      omega
    · simp only [List.mem_singleton] at h
      subst h
      exact Nat.le_refl _

/-! ## C7 — the inter-repository pacing delay -/

/-- C7 as stated is false: a repository whose iteration raises an
exception reaches the `except` branch, which performs no `time.sleep` at
all, so its pacing delay is neither 0.1 nor 0.5 nor 2 — there is none.
Concretely, a 1-repository scan whose only repository errors records no
delay for it, instead of the 0.1 units the claim assigns to every
non-5th repository. -/
theorem pacing_delay_counterexample :
    (analyze_organization [] [(("o", "r"), FetchOutcome.failure "boom")]
        (fun _ => some 100)).delays = [none]
    ∧ (none : Option ℚ) ≠ some (1 / 10) := by
  exact ⟨rfl, by decide⟩

/-- C7, amended: on every repository whose iteration does not raise, the
delay is the adaptive one — on every 5th processed repository, 2 units
when the fresh quota poll reports at most 20 remaining (0.5 when the poll
fails), otherwise 0.5; on other repositories 0.1 — while a repository
whose iteration raises an exception receives no pacing delay at all. -/
theorem pacing_delay_amended (db0 : List (String × Json))
    (repos : List ((String × String) × FetchOutcome)) (quota : Nat → Option Nat) :
    (analyze_organization db0 repos quota).delays
      = expectedDelays quota 0 repos := by
  simp [analyze_organization, scan_foldl_delays, initialScanState]

/-! ## C9 — only public repositories are counted and attempted -/

/-- C9: a scan started through the analyze endpoint records as
`total_repos` exactly the number of listing entries whose visibility is
'public', and attempts exactly those entries (in listing order); entries
of any other visibility are silently excluded. -/
theorem only_public_repositories_scanned (db0 : List (String × Json))
    (listing : List RepoListing) (outcomes : RepoListing → FetchOutcome)
    (quota : Nat → Option Nat)
    (h : get_public_repositories listing ≠ []) :
    (analyze_endpoint db0 listing outcomes quota).map Prod.fst
      = some ((listing.filter (fun r => r.visibility == "public")).length)
    ∧ (analyze_endpoint db0 listing outcomes quota).map (fun p => p.2.attempts)
      = some ((listing.filter (fun r => r.visibility == "public")).map
          (fun r => fullName r.owner r.name)) := by
  have hlen : ¬ (get_public_repositories listing).length = 0 := by
    simpa [List.length_eq_zero] using h
  have hatt := (scan_processes_every_repo_once db0
    ((get_public_repositories listing).map
      (fun r => ((r.owner, r.name), outcomes r))) quota).1
  constructor
  · simp [analyze_endpoint, hlen]
    rfl
  · simp only [analyze_endpoint, hlen, if_false, Option.map_some']
    rw [hatt]
    simp [get_public_repositories, List.map_map, Function.comp]

/-- C9, instantiated: a listing with one public and one private repository
records a total of 1 and attempts only the public one. -/
theorem only_public_repositories_scanned_witness :
    (analyze_endpoint [] [⟨"o", "pub", "public"⟩, ⟨"o", "priv", "private"⟩]
        (fun _ => FetchOutcome.absent) (fun _ => none)).map Prod.fst = some 1
    ∧ (analyze_endpoint [] [⟨"o", "pub", "public"⟩, ⟨"o", "priv", "private"⟩]
        (fun _ => FetchOutcome.absent) (fun _ => none)).map
          (fun p => p.2.attempts) = some ["o/pub"] := by
  have := only_public_repositories_scanned []
    [⟨"o", "pub", "public"⟩, ⟨"o", "priv", "private"⟩]
    (fun _ => FetchOutcome.absent) (fun _ => none) (by decide)
  simpa using this

/-! ## C2 — shape of the `get_top_dependencies` result -/

theorem groupCounts_fst (l : List Json) :
    (groupCounts l).map Prod.fst = l.dedup := by
  rw [groupCounts, List.map_map]
  exact List.map_id'' (fun _ => rfl) _

/-- C2, amended: on a store whose identity extraction succeeds,
`get_top_dependencies` returns at most `limit` pairs, sorted by count in
non-increasing order (ties are possible and their order is
implementation-defined), with pairwise-distinct identities; every returned
identity is a non-NULL extracted identity whose text does not contain
"githubaction" case-insensitively (SQLite `LIKE`), and its count is its
number of occurrences among the kept identities of all documents. -/
theorem top_dependencies_sound (db : List (String × Json)) (limit : Nat)
    (ids : List Json) (r : List (Json × Nat))
    (hids : allIdentities db = .ok ids)
    (hr : get_top_dependencies db limit = .ok r) :
    r.length ≤ limit
    ∧ List.Pairwise countGE r
    ∧ (r.map Prod.fst).Nodup
    ∧ ∀ p ∈ r, likeGithubaction p.1 = false
        ∧ p.1 ∈ ids
        ∧ p.2 = (ids.filter (fun v => !(likeGithubaction v))).count p.1 := by
  rw [get_top_dependencies, hids] at hr
  simp only [except_ok_bind, except_pure_eq_ok, Except.ok.injEq] at hr
  subst hr
  refine ⟨List.length_take_le _ _, ?_, ?_, ?_⟩
  · exact (List.sorted_insertionSort countGE _).sublist (List.take_sublist _ _)
  · rw [List.map_take]
    have h1 : ((groupCounts (ids.filter
        (fun v => !(likeGithubaction v)))).map Prod.fst).Nodup := by
      rw [groupCounts_fst]
      exact List.nodup_dedup _
    have h2 := ((List.perm_insertionSort countGE (groupCounts (ids.filter
        (fun v => !(likeGithubaction v))))).map Prod.fst).symm.nodup h1
    exact List.Nodup.sublist (List.take_sublist _ _) h2
  · intro p hp
    have hp1 : p ∈ List.insertionSort countGE
        (groupCounts (ids.filter (fun v => !(likeGithubaction v)))) :=
      (List.take_sublist _ _).mem hp
    have hp2 : p ∈ groupCounts (ids.filter (fun v => !(likeGithubaction v))) :=
      (List.perm_insertionSort countGE _).mem_iff.1 hp1
    rw [groupCounts] at hp2
    obtain ⟨k, hk, rfl⟩ := List.mem_map.1 hp2
    have hk2 := List.mem_dedup.1 hk
    have hk3 := List.mem_filter.1 hk2
    refine ⟨?_, hk3.1, rfl⟩
    have hlike : (!(likeGithubaction k)) = true := hk3.2
    simpa using hlike

/-- Boolean test for a strictly descending sequence of counts, as the
claim's "sorted strictly descending" reads. -/
def strictlyDesc : List Nat → Bool
  | [] => true
  | [_] => true
  | a :: b :: t => (b < a) && strictlyDesc (b :: t)

/-- A store with one document whose packages carry identities "A", "B" and
"xGithubActionz". -/
def C2exDb : List (String × Json) :=
  [("acme/widgets", Json.objOf [("sbom", Json.objOf [("packages",
      Json.arrOf [Json.objOf [("SPDXID", Json.str "A")],
                  Json.objOf [("SPDXID", Json.str "B")],
                  Json.objOf [("SPDXID", Json.str "xGithubActionz")]])])])] 

/-- C2 as stated is false on two points, both visible on `C2exDb`: the
identity "xGithubActionz" does not contain "githubaction" under a
case-sensitive substring match, yet it is excluded from the result
(SQLite's `LIKE` is case-insensitive over ASCII); and the two returned
counts are [1, 1], which is not strictly descending (ties survive
`ORDER BY occurrence_count DESC`). -/
theorem top_dependencies_counterexample :
    (get_top_dependencies C2exDb 10).map List.length = .ok 2
    ∧ (get_top_dependencies C2exDb 10).map (fun l => l.map Prod.snd) = .ok [1, 1]
    ∧ (get_top_dependencies C2exDb 10).map
        (fun l => (l.map Prod.fst).contains (Json.str "xGithubActionz")) = .ok false
    ∧ containsSeq "githubaction".data "xGithubActionz".data = false
    ∧ strictlyDesc [1, 1] = false := by
  refine ⟨rfl, rfl, rfl, by decide, by decide⟩

/-- C2, instantiated on `C2exDb`. -/
theorem top_dependencies_sound_witness :
    ([(Json.str "A", 1), (Json.str "B", 1)] : List (Json × Nat)).length ≤ 10
    ∧ List.Pairwise countGE [(Json.str "A", 1), (Json.str "B", 1)]
    ∧ (([(Json.str "A", 1), (Json.str "B", 1)] : List (Json × Nat)).map
        Prod.fst).Nodup
    ∧ ∀ p ∈ ([(Json.str "A", 1), (Json.str "B", 1)] : List (Json × Nat)),
        likeGithubaction p.1 = false
        ∧ p.1 ∈ [Json.str "A", Json.str "B", Json.str "xGithubActionz"]
        ∧ p.2 = ([Json.str "A", Json.str "B",
            Json.str "xGithubActionz"].filter
              (fun v => !(likeGithubaction v))).count p.1 :=
  top_dependencies_sound C2exDb 10
    [Json.str "A", Json.str "B", Json.str "xGithubActionz"]
    [(Json.str "A", 1), (Json.str "B", 1)] rfl rfl

/-! ## C8 — documents with a missing or malformed packages path -/

/-- C8, amended: a stored document whose `$.sbom.packages` path is
missing, or leads to a JSON null, boolean or number, contributes zero
package rows and all three query-engine operations return normally; but —
contrary to the claim as stated — a packages value that is a bare string
is not tolerated: SQLite fails to re-parse the string row as JSON and the
query raises a "malformed JSON" error instead of returning
(see the counterexample). -/
theorem malformed_packages_zero_rows (k : String) (d : Json) (limit : Nat)
    (h : pathSbomPackages d = none ∨ pathSbomPackages d = some Json.null
      ∨ (∃ b, pathSbomPackages d = some (Json.bool b))
      ∨ (∃ n, pathSbomPackages d = some (Json.num n))) :
    docIdentities d = .ok []
    ∧ docDepRows d = .ok []
    ∧ get_top_dependencies [(k, d)] limit = .ok []
    ∧ get_dependency_stats [(k, d)] = .ok ⟨0, 0, 1⟩
    ∧ get_dependencies_by_repo [(k, d)] k = .ok [] := by
  have hid : docIdentities d = .ok [] := by
    rcases h with h | h | ⟨b, h⟩ | ⟨n, h⟩ <;>
      simp [docIdentities, h, jsonEach, exceptMap, extractField]
  have hrows : docDepRows d = .ok [] := by
    rcases h with h | h | ⟨b, h⟩ | ⟨n, h⟩ <;>
      simp [docDepRows, h, jsonEach, exceptMap, extractField]
  have hall : allIdentities [(k, d)] = .ok [] := by
    simp [allIdentities, exceptMap, hid]
  refine ⟨hid, hrows, ?_, ?_, ?_⟩
  · simp [get_top_dependencies, hall, groupCounts]
  · simp [get_dependency_stats, hall]
  · simp [get_dependencies_by_repo, exceptMap, hrows]

/-- A document whose packages value is the bare string "oops". -/
def C8badDoc : Json :=
  Json.objOf [("sbom", Json.objOf [("packages", Json.str "oops")])]

/-- C8 as stated is false: on a store holding a document whose packages
path leads to the bare string "oops" (a malformed packages path), all
three query-engine operations raise SQLite's "malformed JSON" error
instead of treating the document as zero rows and returning normally. -/
theorem malformed_packages_counterexample :
    get_top_dependencies [("bad", C8badDoc)] 10 = .error "malformed JSON"
    ∧ get_dependency_stats [("bad", C8badDoc)] = .error "malformed JSON"
    ∧ get_dependencies_by_repo [("bad", C8badDoc)] "bad"
        = .error "malformed JSON" := by
  exact ⟨rfl, rfl, rfl⟩

/-- C8, instantiated: a numeric packages value contributes zero rows and
every operation returns normally. -/
theorem malformed_packages_zero_rows_witness :
    docIdentities (Json.objOf [("sbom", Json.objOf [("packages", Json.num 5)])])
        = .ok []
    ∧ docDepRows (Json.objOf [("sbom", Json.objOf [("packages", Json.num 5)])])
        = .ok []
    ∧ get_top_dependencies
        [("r", Json.objOf [("sbom", Json.objOf [("packages", Json.num 5)])])] 10
        = .ok []
    ∧ get_dependency_stats
        [("r", Json.objOf [("sbom", Json.objOf [("packages", Json.num 5)])])]
        = .ok ⟨0, 0, 1⟩
    ∧ get_dependencies_by_repo
        [("r", Json.objOf [("sbom", Json.objOf [("packages", Json.num 5)])])] "r"
        = .ok [] :=
  malformed_packages_zero_rows "r" _ 10 (Or.inr (Or.inr (Or.inr ⟨5, rfl⟩)))

/-- C10, instantiated: updating session 1 leaves session 2's row exactly
as it was. -/
theorem update_session_frame_witness :
    (update_analysis_session
        [(1, ⟨"acme", 3, 0, "pending", 7, none⟩),
         (2, ⟨"beta", 4, 1, "processing", 8, none⟩)] 1 2 "processing" 99).get
      ⟨1, by decide⟩
    = ([(1, ⟨"acme", 3, 0, "pending", 7, none⟩),
        (2, ⟨"beta", 4, 1, "processing", 8, none⟩)] :
        List (Nat × SessionRow)).get ⟨1, by decide⟩ := by
  have h := update_session_frame
    [(1, ⟨"acme", 3, 0, "pending", 7, none⟩),
     (2, ⟨"beta", 4, 1, "processing", 8, none⟩)] 1 2 "processing" 99 1 (by decide)
  exact h.2.2.2.2.1 (by decide)
